import Mathlib

set_option maxRecDepth 40000
set_option maxHeartbeats 1000000

/-!
Verification of the polyline6 shape decoder from `src/shapes.rs` of
`valhalla-client-rs`.

The Rust source is shallowly embedded as follows:

* An encoded string is its list of ASCII byte values (`List Nat`); the Rust
  decoder works on `encoded.as_bytes()` and indexes it byte by byte.
* The inner `while byte >= 0x20` loop of `decode_shape_polyline6`
  (shapes.rs lines 54-62) becomes `decodeValue`, structurally recursive on
  the remaining bytes.  The out-of-bounds index `encoded.as_bytes()[i]`
  with `i = len` that the Rust code performs on truncated input becomes the
  `none` result.
* The outer `while i < encoded.len()` loop (lines 50-78) becomes
  `decodeLoop`, with the unrolled `for j in [0, 1]` body: the latitude
  field is decoded first, then the longitude field, exactly as in the
  source.  The loop is written with a fuel argument so that it is
  structurally recursive; `decodeShapePolyline6Int` instantiates the fuel
  with the input length, which is proved sufficient (`decodeLoop_congr`).
* The Rust accumulator `ll[j]` is an `i32`; it is modelled by an unbounded
  `Nat`/`Int`.  For every input appearing in the repository's fixtures the
  accumulated values stay far below `2^31`, so no wrapping occurs and the
  model agrees with the two's-complement semantics; `byte & 0x1f` on the
  possibly negative `i32` value `byte` is modelled by `emod 32`, and the
  two's-complement bitwise NOT `!x` by the integer complement `~~~x = -x - 1`.
* `f64`/`f32` arithmetic is modelled exactly: a finite binary64 (binary32)
  value is represented by the rational number it denotes, and every
  operation that rounds in the source (`1.0 / 1e6`, the multiplication by
  `inv`, `as f32`, and decimal literals) is followed by `roundPrec 53`
  (`roundPrec 24`), IEEE-754 round-to-nearest, ties-to-even at 53 (24)
  significant bits.  All values reached in this development are normal, so
  no subnormal/overflow handling is needed.
-/

namespace ValhallaShapes

/-- Floor of the base-2 logarithm of a natural number, fuelled so that it is
structurally recursive; `flog2Nat fuel n` is exact whenever `n < 2 ^ fuel`.
All numerators/denominators in this development are far below `2 ^ 320`. -/
def flog2Nat : Nat → Nat → Nat
  | 0, _ => 0
  | f + 1, n => if n ≤ 1 then 0 else flog2Nat f (n / 2) + 1

/-- Rational multiplication, written out on numerators and denominators so
that it evaluates by kernel reduction (`qmul_eq_mul` identifies it with `*`). -/
def qmul (a b : ℚ) : ℚ := Rat.divInt (a.num * b.num) ((a.den : Int) * (b.den : Int))

/-- Rational division, written out on numerators and denominators
(`qdiv_eq_div` identifies it with `/`). -/
def qdiv (a b : ℚ) : ℚ := Rat.divInt (a.num * (b.den : Int)) ((a.den : Int) * b.num)

/-- Rational subtraction, written out on numerators and denominators
(`qsub_eq_sub` identifies it with `-`). -/
def qsub (a b : ℚ) : ℚ :=
  Rat.divInt (a.num * (b.den : Int) - b.num * (a.den : Int)) ((a.den : Int) * (b.den : Int))

/-- Rational absolute value (`qabs_eq_abs` identifies it with `|·|`). -/
def qabs (q : ℚ) : ℚ := if q.num < 0 then -q else q

/-- The rational value `2 ^ e` for an integer exponent `e`. -/
def pow2 (e : Int) : ℚ :=
  match e with
  | .ofNat n => mkRat (((1 <<< n : Nat) : Int)) 1
  | .negSucc n => mkRat 1 (1 <<< (n + 1))

/-- Greatest integer `e` with `2 ^ e ≤ q`, for a positive rational `q`. -/
def flog2 (q : ℚ) : Int :=
  let e0 : Int := (flog2Nat 320 q.num.natAbs : Int) - (flog2Nat 320 q.den : Int)
  if q < pow2 e0 then e0 - 1 else e0

/-- Floor of a rational number as an integer. -/
def qfloor (q : ℚ) : Int := Int.fdiv q.num q.den

/-- Round a rational to the nearest integer, ties to even. -/
def rne (q : ℚ) : Int :=
  let n := qfloor q
  let frac := qsub q (n : ℚ)
  if frac < mkRat 1 2 then n
  else if mkRat 1 2 < frac then n + 1
  else if n % 2 = 0 then n else n + 1

/-- IEEE-754 round-to-nearest (ties to even) of a rational number to a
floating-point value with `prec` significand bits (`prec = 53` for `f64`,
`prec = 24` for `f32`), for values in the normal range. -/
def roundPrec (prec : Nat) (q : ℚ) : ℚ :=
  if q = 0 then 0
  else
    let s := qabs q
    let e := flog2 s
    let sc : Int := (prec : Int) - 1 - e
    let r := qmul ((rne (qmul s (pow2 sc)) : Int) : ℚ) (pow2 (-sc))
    if q < 0 then -r else r

/-- The `f64` value of an `i32`, `f64::from(ll)` in the source (exact, since
every `i32` is far below `2 ^ 53`; rounding is the identity on it). -/
def ofIntF64 (n : Int) : ℚ := roundPrec 53 (n : ℚ)

/-- IEEE-754 binary64 multiplication of two `f64` values (given by the
rationals they denote). -/
def mulF64 (a b : ℚ) : ℚ := roundPrec 53 (qmul a b)

/-- IEEE-754 binary64 division of two `f64` values. -/
def divF64 (a b : ℚ) : ℚ := roundPrec 53 (qdiv a b)

/-- The `f64` value denoted by the decimal literal `num / den` (Rust decimal
float literals are converted to the nearest binary64 value). -/
def f64Lit (num : Int) (den : Nat) : ℚ := roundPrec 53 (Rat.divInt num (den : Int))

/-- Rust `x as f32` on an `f64` value: round to the nearest binary32. -/
def toF32 (a : ℚ) : ℚ := roundPrec 24 a

/-- The constant `inv` of `decode_shape_polyline6` (shapes.rs line 45):
`1.0 / 1e6`, one binary64 division (the literals `1.0` and `1e6 = 1000000.0`
are exactly representable). -/
def inv6 : ℚ := divF64 1 1000000

/-- The `ShapePoint` struct (shapes.rs lines 16-20): a pair of `f64` degrees
coordinates, each modelled by the rational it denotes. -/
structure ShapePoint where
  lon : ℚ
  lat : ℚ
deriving DecidableEq

/-- The `ShapeFormat` enum (shapes.rs lines 4-14). -/
inductive ShapeFormat where
  | polyline6
  | polyline5
  | geoJSON
  | noShape
deriving DecidableEq

/-- The latitude range check `(-90.0..90.0).contains(&lat)` used by every
`debug_assert!` in shapes.rs (lines 24, 32, 75).  Rust's
`Range::contains` is `start <= x && x < end`, a half-open interval. -/
def latAssertOk (lat : ℚ) : Bool := decide (-90 ≤ lat) && decide (lat < 90)

/-- The longitude range check `(-180.0..180.0).contains(&lon)` used by every
`debug_assert!` in shapes.rs (lines 25, 33, 76). -/
def lonAssertOk (lon : ℚ) : Bool := decide (-180 ≤ lon) && decide (lon < 180)

/-- The inner byte loop of `decode_shape_polyline6` (shapes.rs lines 54-62):
starting from data accumulator `acc` and bit position `shift`, keep reading
bytes while the continuation bit is set (`byte >= 0x20` after subtracting the
ASCII offset 63), or-ing the low five bits of each byte into the accumulator.
Returns the accumulated raw field value and the remaining bytes; `none`
models the out-of-bounds index `encoded.as_bytes()[i]` the Rust code
performs when the input ends before the field terminates. -/
def decodeValue : List Nat → Nat → Nat → Option (Nat × List Nat)
  | [], _, _ => none
  | b :: rest, shift, acc =>
    let byte : Int := (b : Int) - 63
    let acc' : Nat := acc ||| ((byte % 32).toNat <<< shift)
    if 0x20 ≤ byte then decodeValue rest (shift + 5) acc' else some (acc', rest)

/-- The outer point loop of `decode_shape_polyline6` (shapes.rs lines 50-78),
with the two iterations of `for j in [0, 1]` unrolled (latitude first, then
longitude).  Each raw field value is zigzag-decoded — `!(ll >> 1)` if its
lowest bit is set, else `ll >> 1` — and added to the running previous value
for its axis, exactly as in lines 64-70.  `fuel` bounds the number of loop
iterations; the branch `0` is never taken when `fuel` is at least the number
of remaining bytes (`decodeLoop_congr`). -/
def decodeLoop : Nat → Int → Int → List Nat → Option (List (Int × Int))
  | 0, _, _, bytes =>
    match bytes with
    | [] => some []
    | _ :: _ => none
  | fuel + 1, prevLat, prevLon, bytes =>
    match bytes with
    | [] => some []
    | _ :: _ =>
      match decodeValue bytes 0 0 with
      | none => none
      | some (rawLat, rest1) =>
        let lat : Int := prevLat +
          (if rawLat &&& 1 ≠ 0 then ~~~((rawLat >>> 1 : Nat) : Int)
           else ((rawLat >>> 1 : Nat) : Int))
        match decodeValue rest1 0 0 with
        | none => none
        | some (rawLon, rest2) =>
          let lon : Int := prevLon +
            (if rawLon &&& 1 ≠ 0 then ~~~((rawLon >>> 1 : Nat) : Int)
             else ((rawLon >>> 1 : Nat) : Int))
          match decodeLoop fuel lat lon rest2 with
          | none => none
          | some ps => some ((lat, lon) :: ps)

/-- The integer core of `decode_shape_polyline6` (shapes.rs lines 41-81): the
list of `(lat, lon)` integer-scaled coordinate pairs, before the final
scaling by `inv`.  `none` models the out-of-bounds panic on malformed
input. -/
def decodeShapePolyline6Int (bytes : List Nat) : Option (List (Int × Int)) :=
  decodeLoop bytes.length 0 0 bytes

/-- `decode_shape_polyline6` (shapes.rs lines 41-81): every integer pair is
scaled by the precision, `lon = f64::from(ll[1]) * inv` and
`lat = f64::from(ll[0]) * inv` (lines 73-74), and pushed as a `ShapePoint`. -/
def decodeShapePolyline6 (bytes : List Nat) : Option (List ShapePoint) :=
  (decodeShapePolyline6Int bytes).map
    (List.map fun p => { lon := mulF64 (ofIntF64 p.2) inv6
                         lat := mulF64 (ofIntF64 p.1) inv6 })

/-- `From<&ShapePoint> for geo_types::Point` (shapes.rs lines 22-28):
`Point::new(p.lon, p.lat)`, i.e. x = longitude, y = latitude. -/
def shapePointToGeoPoint (p : ShapePoint) : ℚ × ℚ := (p.lon, p.lat)

/-- `From<ShapePoint> for Coordinate` (shapes.rs lines 30-36):
`(p.lon as f32, p.lat as f32)`. -/
def shapePointToCoordinate (p : ShapePoint) : ℚ × ℚ := (toF32 p.lon, toF32 p.lat)

/-- `deserialize_shape` (shapes.rs lines 82-88), abstracted over the serde
deserializer: the argument is the outcome of `String::deserialize` (the
extracted string as its byte list, or the framework's error), and the
adapter either passes the error through (the `?` operator) or returns
`Ok(decode_shape_polyline6(s))`. -/
def deserializeShape {ε : Type} (res : Except ε (List Nat)) :
    Except ε (Option (List ShapePoint)) :=
  match res with
  | .error e => .error e
  | .ok s => .ok (decodeShapePolyline6 s)

/-- One field of the byte stream after another, decoded greedily left to
right to raw (pre-zigzag) values; follows the spec's step 3 description of a
"field".  `none` when a continuation chain runs past the end of the input. -/
def parseFields : Nat → List Nat → Option (List Nat)
  | 0, bytes =>
    match bytes with
    | [] => some []
    | _ :: _ => none
  | fuel + 1, bytes =>
    match bytes with
    | [] => some []
    | _ :: _ =>
      match decodeValue bytes 0 0 with
      | none => none
      | some (raw, rest) => (parseFields fuel rest).map (raw :: ·)

/-- The zigzag decoding of one raw field value as the spec words it (steps
4-5): if the least significant bit of the raw value is 1 the signed delta is
the bitwise complement of `raw >> 1`, otherwise it is `raw >> 1`. -/
def zigzagSpecDelta (raw : Nat) : Int :=
  if raw % 2 = 1 then ~~~((raw >>> 1 : Nat) : Int) else ((raw >>> 1 : Nat) : Int)

/-- Points built from a list of raw field values as the spec words it (steps
2, 5, 7): consecutive fields pair up, latitude first, each zigzag-decoded
delta is added to the running value of its axis, and points are emitted in
order; a trailing unpaired field has no defined point. -/
def pointsOfFields (prevLat prevLon : Int) : List Nat → Option (List (Int × Int))
  | [] => some []
  | [_] => none
  | a :: b :: t =>
    (pointsOfFields (prevLat + zigzagSpecDelta a) (prevLon + zigzagSpecDelta b) t).map
      ((prevLat + zigzagSpecDelta a, prevLon + zigzagSpecDelta b) :: ·)

/-- ASCII byte values of the golden fixture A string of the test `decode_shape_works_america` (shapes.rs line 95), the polyline6 literal beginning "\x7dc|gkAlvkmqCkg@zf@_IbJaP..." (773 bytes; braces and the backslash of the original appear here as their byte values 123, 125 and 92). -/
def fixtureA : List Nat :=
  [
    125, 99, 124, 103, 107, 65, 108, 118, 107, 109, 113, 67, 107, 103, 64, 122, 102, 64, 95, 73,
    98, 74, 97, 80, 96, 88, 111, 88, 113, 94, 97, 67, 119, 68, 121, 66, 121, 71, 107, 65,
    121, 71, 73, 125, 72, 63, 105, 70, 90, 101, 72, 96, 65, 117, 70, 102, 66, 125, 72, 120,
    66, 97, 71, 126, 120, 65, 105, 97, 66, 116, 70, 103, 72, 116, 80, 113, 87, 102, 67, 101,
    68, 112, 77, 115, 78, 118, 97, 64, 112, 120, 64, 114, 82, 112, 95, 64, 124, 115, 64, 118,
    118, 65, 100, 123, 64, 116, 98, 66, 112, 105, 65, 102, 122, 66, 106, 78, 117, 119, 64, 108,
    71, 111, 96, 64, 98, 65, 119, 72, 122, 64, 125, 73, 124, 64, 99, 81, 94, 103, 78, 102,
    64, 95, 79, 66, 95, 78, 74, 125, 91, 66, 101, 74, 72, 123, 99, 64, 88, 123, 91, 83,
    97, 75, 95, 64, 123, 83, 93, 125, 81, 95, 64, 99, 74, 85, 103, 76, 65, 103, 74, 63,
    105, 85, 66, 111, 66, 94, 101, 77, 70, 111, 65, 96, 66, 115, 88, 98, 76, 103, 120, 65,
    122, 75, 95, 123, 67, 112, 68, 125, 111, 65, 96, 64, 119, 85, 108, 66, 101, 103, 65, 118,
    65, 109, 104, 64, 102, 71, 99, 114, 64, 108, 71, 117, 114, 64, 122, 71, 117, 93, 106, 71,
    101, 83, 118, 64, 95, 66, 100, 78, 105, 89, 100, 67, 97, 68, 104, 72, 97, 74, 120, 94,
    95, 91, 102, 94, 125, 81, 114, 101, 64, 99, 88, 106, 79, 103, 74, 116, 74, 125, 72, 106,
    73, 113, 75, 106, 69, 107, 72, 122, 68, 123, 72, 112, 68, 97, 73, 114, 66, 95, 71, 118,
    65, 125, 69, 112, 65, 111, 70, 102, 65, 97, 71, 108, 65, 125, 72, 124, 64, 121, 72, 98,
    65, 119, 75, 126, 76, 101, 123, 65, 124, 64, 121, 72, 118, 64, 123, 70, 116, 64, 99, 69,
    102, 66, 105, 72, 100, 67, 115, 72, 106, 67, 107, 70, 124, 66, 121, 68, 120, 81, 97, 89,
    108, 69, 125, 71, 114, 67, 109, 69, 106, 82, 123, 89, 112, 94, 97, 108, 64, 110, 77, 103,
    77, 124, 67, 95, 70, 98, 93, 95, 106, 64, 120, 76, 119, 82, 126, 82, 111, 91, 96, 68,
    105, 69, 108, 68, 115, 68, 126, 71, 109, 71, 108, 78, 109, 77, 112, 69, 119, 68, 107, 65,
    119, 71, 99, 68, 119, 82, 95, 69, 107, 85, 109, 68, 117, 86, 123, 67, 109, 84, 105, 80,
    119, 97, 65, 115, 99, 64, 123, 107, 67, 119, 76, 95, 116, 64, 123, 100, 64, 119, 109, 67,
    113, 90, 107, 105, 66, 123, 78, 107, 99, 65, 99, 71, 119, 97, 64, 97, 65, 103, 72, 121,
    74, 95, 116, 64, 117, 73, 95, 113, 64, 95, 75, 121, 112, 64, 97, 69, 103, 89, 113, 66,
    113, 76, 125, 77, 95, 118, 64, 95, 81, 123, 110, 64, 115, 86, 119, 125, 64, 103, 86, 123,
    114, 64, 107, 76, 115, 92, 115, 67, 101, 73, 113, 88, 109, 119, 64, 101, 70, 107, 93, 87,
    123, 93, 100, 67, 105, 99, 64, 68, 119, 64, 118, 73, 115, 98, 64, 112, 64, 103, 68, 126,
    79, 105, 119, 64, 104, 65, 107, 71, 116, 66, 97, 76, 100, 64, 103, 70, 106, 65, 119, 99,
    64, 71, 105, 71, 79, 101, 75, 115, 64, 99, 101, 64, 105, 64, 95, 72, 101, 69, 99, 105,
    64, 95, 64, 101, 70, 121, 68, 115, 104, 64, 103, 69, 115, 114, 64, 97, 64, 101, 90, 113,
    65, 117, 97, 65, 111, 64, 99, 110, 65, 98, 64, 125, 74, 104, 65, 119, 112, 65, 110, 67,
    113, 124, 67, 112, 67, 111, 99, 66, 72, 99, 68, 90, 105, 78, 114, 65, 99, 112, 64, 96,
    66, 105, 122, 64, 120, 64, 125, 109, 64, 98, 65, 103, 108, 64, 120, 64, 99, 87, 114, 72,
    121, 99, 65, 98, 71, 121, 105, 64, 116, 78, 101, 126, 64, 114, 65, 115, 73, 106, 68, 113,
    84, 108, 68, 119, 83, 124, 71, 95, 103, 64, 118, 71, 121, 100, 64, 102, 71, 101, 115, 64,
    126, 68, 121, 110, 65, 90, 125, 110, 65, 88, 99, 126, 66, 111, 71, 101, 66, 125, 72, 115,
    73, 97, 76, 125, 67, 113, 77, 101, 68, 109, 68, 98, 66, 119, 66, 101, 64, 105, 70, 125,
    64, 119, 77, 107, 67, 107, 83, 117, 70, 115, 65, 95, 64]

/-- ASCII byte values of the golden fixture B string of the test `decode_shape_works_germany` (shapes.rs line 287), the polyline6 literal beginning "czaa\x7bAythgU\x7dK_CgFeAiB]mDq@uRoD_Ca@..." (283 bytes). -/
def fixtureB : List Nat :=
  [
    99, 122, 97, 97, 123, 65, 121, 116, 104, 103, 85, 125, 75, 95, 67, 103, 70, 101, 65, 105,
    66, 93, 109, 68, 113, 64, 117, 82, 111, 68, 95, 67, 97, 64, 124, 64, 97, 79, 98, 64,
    117, 72, 100, 64, 101, 73, 98, 64, 103, 72, 104, 64, 119, 73, 96, 64, 99, 72, 78, 109,
    67, 104, 66, 97, 91, 124, 67, 105, 104, 64, 102, 65, 95, 82, 122, 66, 94, 102, 109, 64,
    102, 75, 126, 65, 86, 98, 76, 108, 66, 112, 72, 110, 65, 118, 77, 102, 67, 118, 68, 116,
    64, 104, 77, 122, 66, 114, 79, 106, 67, 116, 71, 102, 65, 114, 69, 122, 64, 100, 74, 118,
    65, 100, 67, 94, 98, 67, 7, 64, 106, 72, 126, 66, 94, 98, 66, 88, 106, 65, 82, 118,
    90, 110, 70, 122, 86, 124, 69, 112, 78, 106, 67, 114, 82, 110, 68, 112, 83, 126, 68, 96,
    68, 100, 64, 98, 75, 96, 66, 106, 69, 112, 64, 108, 67, 100, 64, 106, 76, 120, 66, 108,
    73, 126, 65, 126, 70, 124, 81, 84, 96, 65, 103, 64, 126, 71, 97, 64, 112, 69, 89, 114,
    67, 97, 64, 102, 69, 120, 65, 96, 64, 126, 73, 102, 67, 122, 73, 106, 67, 106, 123, 64,
    124, 85, 112, 125, 64, 104, 87, 108, 84, 112, 72, 112, 65, 98, 66, 94, 96, 67, 125, 67,
    122, 104, 64, 125, 70, 103, 66, 109, 67, 121, 64, 115, 79, 113, 69, 119, 69, 106, 98, 64,
    111, 64, 114, 70, 111, 65, 100, 76, 101, 65, 97, 64, 121, 73, 97, 68, 99, 70, 105, 66,
    89, 100, 67]

/-! ### Bridging lemmas for the executable rational operations -/

theorem qmul_eq_mul (a b : ℚ) : qmul a b = a * b := by
  rw [qmul, Rat.divInt_eq_div]
  push_cast
  rw [← div_mul_div_comm, Rat.num_div_den, Rat.num_div_den]

theorem qdiv_eq_div (a b : ℚ) : qdiv a b = a / b := (Rat.div_def' a b).symm

theorem qsub_eq_sub (a b : ℚ) : qsub a b = a - b := by
  have ha : ((a.den : ℚ)) ≠ 0 := by exact_mod_cast a.den_nz
  have hb : ((b.den : ℚ)) ≠ 0 := by exact_mod_cast b.den_nz
  rw [qsub, Rat.divInt_eq_div]
  push_cast
  conv_rhs => rw [← Rat.num_div_den a, ← Rat.num_div_den b]
  rw [div_sub_div _ _ ha hb]
  congr 1
  ring

theorem qabs_eq_abs (q : ℚ) : qabs q = |q| := by
  rw [qabs]
  split
  · rename_i h
    rw [abs_of_neg]
    exact lt_of_not_ge fun hq => absurd (Rat.num_nonneg.mpr hq) (by omega)
  · rename_i h
    rw [abs_of_nonneg]
    exact Rat.num_nonneg.mp (by omega)

/-! ### Structural lemmas about the decoder -/

/-- A successfully decoded field consumes at least one byte and leaves
exactly a suffix of the input: the cursor moves strictly left to right. -/
theorem decodeValue_drop :
    ∀ (bytes : List Nat) (shift acc raw : Nat) (rest : List Nat),
      decodeValue bytes shift acc = some (raw, rest) →
      ∃ k, 1 ≤ k ∧ k ≤ bytes.length ∧ rest = bytes.drop k := by
  intro bytes
  induction bytes with
  | nil => intro shift acc raw rest h; simp [decodeValue] at h
  | cons b tl ih =>
    intro shift acc raw rest h
    simp only [decodeValue] at h
    split at h
    · obtain ⟨k, hk1, hk2, hk3⟩ := ih _ _ _ _ h
      exact ⟨k + 1, by omega, by simp; omega, by simpa using hk3⟩
    · cases h
      exact ⟨1, by omega, by simp, rfl⟩

/-- A successfully decoded field leaves strictly fewer bytes. -/
theorem decodeValue_length_lt
    {bytes : List Nat} {shift acc raw : Nat} {rest : List Nat}
    (h : decodeValue bytes shift acc = some (raw, rest)) :
    rest.length < bytes.length := by
  obtain ⟨k, hk1, hk2, hk3⟩ := decodeValue_drop bytes shift acc raw rest h
  cases bytes with
  | nil => simp [decodeValue] at h
  | cons b tl => subst hk3; simp; omega

theorem parseFields_nil : ∀ fuel, parseFields fuel [] = some [] := by
  intro fuel; cases fuel <;> rfl

theorem decodeLoop_nil : ∀ (fuel : Nat) (pLat pLon : Int),
    decodeLoop fuel pLat pLon [] = some [] := by
  intro fuel pLat pLon; cases fuel <;> rfl

/-- `parseFields` does not depend on the fuel, as long as the fuel is at
least the number of bytes. -/
theorem parseFields_congr :
    ∀ (n : Nat) (bytes : List Nat) (f g : Nat),
      bytes.length ≤ n → bytes.length ≤ f → bytes.length ≤ g →
      parseFields f bytes = parseFields g bytes := by
  intro n
  induction n with
  | zero =>
    intro bytes f g hn _ _
    have : bytes = [] := List.length_eq_zero.mp (Nat.le_zero.mp hn)
    subst this
    rw [parseFields_nil, parseFields_nil]
  | succ n ih =>
    intro bytes f g hn hf hg
    cases bytes with
    | nil => rw [parseFields_nil, parseFields_nil]
    | cons b tl =>
      simp only [List.length_cons] at hn hf hg
      cases f with
      | zero => omega
      | succ f' =>
        cases g with
        | zero => omega
        | succ g' =>
          simp only [parseFields]
          cases h1 : decodeValue (b :: tl) 0 0 with
          | none => rfl
          | some v =>
            obtain ⟨raw, rest⟩ := v
            dsimp only
            have hlt := decodeValue_length_lt h1
            simp only [List.length_cons] at hlt
            rw [ih rest f' g' (by omega) (by omega) (by omega)]

/-- `decodeLoop` does not depend on the fuel, as long as the fuel is at
least the number of bytes: the decoder terminates within one outer-loop
iteration per point, each consuming at least two bytes. -/
theorem decodeLoop_congr :
    ∀ (n : Nat) (bytes : List Nat) (pLat pLon : Int) (f g : Nat),
      bytes.length ≤ n → bytes.length ≤ f → bytes.length ≤ g →
      decodeLoop f pLat pLon bytes = decodeLoop g pLat pLon bytes := by
  intro n
  induction n with
  | zero =>
    intro bytes pLat pLon f g hn _ _
    have : bytes = [] := List.length_eq_zero.mp (Nat.le_zero.mp hn)
    subst this
    rw [decodeLoop_nil, decodeLoop_nil]
  | succ n ih =>
    intro bytes pLat pLon f g hn hf hg
    cases bytes with
    | nil => rw [decodeLoop_nil, decodeLoop_nil]
    | cons b tl =>
      simp only [List.length_cons] at hn hf hg
      cases f with
      | zero => omega
      | succ f' =>
        cases g with
        | zero => omega
        | succ g' =>
          simp only [decodeLoop]
          cases h1 : decodeValue (b :: tl) 0 0 with
          | none => rfl
          | some v1 =>
            obtain ⟨rawLat, rest1⟩ := v1
            dsimp only
            have hlt1 := decodeValue_length_lt h1
            simp only [List.length_cons] at hlt1
            cases h2 : decodeValue rest1 0 0 with
            | none => rfl
            | some v2 =>
              obtain ⟨rawLon, rest2⟩ := v2
              dsimp only
              have hlt2 := decodeValue_length_lt h2
              rw [ih rest2 _ _ f' g' (by omega) (by omega) (by omega)]

/-- The zigzag branch as written in the source (`ll & 1`, `!`, `>>`) computes
the delta described by the spec (`zigzagSpecDelta`). -/
theorem zigzagIf_eq (raw : Nat) :
    (if raw &&& 1 ≠ 0 then ~~~((raw >>> 1 : Nat) : Int) else ((raw >>> 1 : Nat) : Int)) =
      zigzagSpecDelta raw := by
  rw [zigzagSpecDelta, Nat.and_one_is_mod]
  rcases Nat.mod_two_eq_zero_or_one raw with h | h <;> simp [h]

/-- The nested decoder loop is the greedy field parse followed by the
pair-and-accumulate construction of points. -/
theorem decodeLoop_eq_parseFields :
    ∀ (n : Nat) (bytes : List Nat) (pLat pLon : Int) (fuel : Nat),
      bytes.length ≤ n → bytes.length ≤ fuel →
      decodeLoop fuel pLat pLon bytes =
        (parseFields fuel bytes).bind (pointsOfFields pLat pLon) := by
  intro n
  induction n with
  | zero =>
    intro bytes pLat pLon fuel hn hf
    have : bytes = [] := List.length_eq_zero.mp (Nat.le_zero.mp hn)
    subst this
    rw [decodeLoop_nil, parseFields_nil]
    rfl
  | succ n ih =>
    intro bytes pLat pLon fuel hn hf
    cases bytes with
    | nil => rw [decodeLoop_nil, parseFields_nil]; rfl
    | cons b tl =>
      simp only [List.length_cons] at hn hf
      cases fuel with
      | zero => omega
      | succ f =>
        simp only [decodeLoop, parseFields]
        cases h1 : decodeValue (b :: tl) 0 0 with
        | none => rfl
        | some v1 =>
          obtain ⟨rawLat, rest1⟩ := v1
          dsimp only
          have hlt1 := decodeValue_length_lt h1
          simp only [List.length_cons] at hlt1
          cases rest1 with
          | nil => rw [parseFields_nil]; rfl
          | cons c tl1 =>
            simp only [List.length_cons] at hlt1
            cases f with
            | zero => omega
            | succ f2 =>
              simp only [parseFields]
              cases h2 : decodeValue (c :: tl1) 0 0 with
              | none => rfl
              | some v2 =>
                obtain ⟨rawLon, rest2⟩ := v2
                dsimp only
                have hlt2 := decodeValue_length_lt h2
                simp only [List.length_cons] at hlt2
                rw [parseFields_congr n rest2 f2 (f2 + 1) (by omega) (by omega) (by omega)]
                rw [ih rest2 _ _ (f2 + 1) (by omega) (by omega)]
                cases hp : parseFields (f2 + 1) rest2 with
                | none => rfl
                | some rs =>
                  simp only [Option.bind, Option.map, pointsOfFields]
                  rw [zigzagIf_eq rawLat, zigzagIf_eq rawLon]
                  cases pointsOfFields (pLat + zigzagSpecDelta rawLat)
                      (pLon + zigzagSpecDelta rawLon) rs <;> rfl

/-- On an even number of raw field values the pair-and-accumulate
construction always produces a point list. -/
theorem pointsOfFields_isSome :
    ∀ (n : Nat) (rs : List Nat) (pLat pLon : Int),
      rs.length ≤ n → rs.length % 2 = 0 →
      ∃ ps, pointsOfFields pLat pLon rs = some ps := by
  intro n
  induction n with
  | zero =>
    intro rs pLat pLon hn _
    have : rs = [] := List.length_eq_zero.mp (Nat.le_zero.mp hn)
    subst this
    exact ⟨[], rfl⟩
  | succ n ih =>
    intro rs pLat pLon hn he
    cases rs with
    | nil => exact ⟨[], rfl⟩
    | cons a rs' =>
      cases rs' with
      | nil => simp at he
      | cons b t =>
        simp only [List.length_cons] at hn he
        obtain ⟨ps, hps⟩ := ih t (pLat + zigzagSpecDelta a) (pLon + zigzagSpecDelta b)
          (by omega) (by omega)
        exact ⟨(pLat + zigzagSpecDelta a, pLon + zigzagSpecDelta b) :: ps,
          by simp only [pointsOfFields, hps]; rfl⟩

/-! ### Claim theorems -/

/-- Claim C1 (counterexample): decoding golden fixture B does not yield 73
points — the claimed point count is false on the code. -/
theorem C1_fixtureB_not_73_points :
    decide ((decodeShapePolyline6 fixtureB).map List.length = some 73) = false := by
  decide

/-- Claim C1 (amended): decoding the golden-fixture-B polyline6 string yields
exactly 71 points, the first point being (longitude 11.670365, latitude
48.268722) and the last point being (longitude 11.668334999999999, latitude
48.262187), all as binary64 values. -/
theorem C1_fixtureB_decode :
    (decodeShapePolyline6 fixtureB).map (fun ps => (ps.length, ps.head?, ps.getLast?)) =
      some (71, some ⟨f64Lit 11670365 1000000, f64Lit 48268722 1000000⟩,
                some ⟨f64Lit 11668334999999999 1000000000000000, f64Lit 48262187 1000000⟩) := by
  decide

/-- Claim C2 (counterexample): a point with latitude exactly -90, or longitude
exactly -180, does satisfy the asserted bounds predicate, contrary to the
claim that the asserted intervals are open on both sides. -/
theorem C2_boundary_points_satisfy_assert :
    latAssertOk (-90) = true ∧ lonAssertOk (-180) = true := by
  decide

/-- Claim C2 (amended): the coordinate-bounds predicate asserted on every
point — `(-90.0..90.0).contains` and `(-180.0..180.0).contains` — is the
half-open intervals -90 ≤ latitude < 90 and -180 ≤ longitude < 180: the
lower boundary values -90 and -180 satisfy it, the upper boundary values 90
and 180 do not. -/
theorem C2_assert_bounds_halfOpen :
    (∀ lat : ℚ, latAssertOk lat = true ↔ -90 ≤ lat ∧ lat < 90) ∧
    (∀ lon : ℚ, lonAssertOk lon = true ↔ -180 ≤ lon ∧ lon < 180) ∧
    latAssertOk (-90) = true ∧ latAssertOk 90 = false ∧
    lonAssertOk (-180) = true ∧ lonAssertOk 180 = false :=
  ⟨fun lat => by simp [latAssertOk], fun lon => by simp [lonAssertOk],
   by decide, by decide, by decide, by decide⟩

/-- Claim C3: decoding the golden-fixture-A polyline6 string yields exactly
180 points, the first point being (longitude -76.781943, latitude 39.991887)
and the last point being (longitude -76.707664, latitude 39.983914), all as
binary64 values. -/
theorem C3_fixtureA_decode :
    (decodeShapePolyline6 fixtureA).map (fun ps => (ps.length, ps.head?, ps.getLast?)) =
      some (180, some ⟨f64Lit (-76781943) 1000000, f64Lit 39991887 1000000⟩,
                 some ⟨f64Lit (-76707664) 1000000, f64Lit 39983914 1000000⟩) := by
  decide

/-- Claim C4: every accumulated raw field value is zigzag-decoded — the
bitwise complement of `raw >> 1` when the least significant bit is 1, plain
`raw >> 1` otherwise — the delta is added to the running previous value of
its axis, and the sum both is emitted in the point and becomes the running
value for the rest of the decode. -/
theorem C4_zigzag_then_accumulate :
    ∀ (bytes rest1 rest2 : List Nat) (rawLat rawLon : Nat) (pLat pLon : Int) (fuel : Nat),
      decodeValue bytes 0 0 = some (rawLat, rest1) →
      decodeValue rest1 0 0 = some (rawLon, rest2) →
      decodeLoop (fuel + 1) pLat pLon bytes =
        (decodeLoop fuel (pLat + zigzagSpecDelta rawLat) (pLon + zigzagSpecDelta rawLon)
            rest2).map
          ((pLat + zigzagSpecDelta rawLat, pLon + zigzagSpecDelta rawLon) :: ·) := by
  intro bytes rest1 rest2 rawLat rawLon pLat pLon fuel h1 h2
  cases bytes with
  | nil => simp [decodeValue] at h1
  | cons b tl =>
    simp only [decodeLoop, h1]
    simp only [h2]
    rw [zigzagIf_eq rawLat, zigzagIf_eq rawLon]
    cases decodeLoop fuel (pLat + zigzagSpecDelta rawLat) (pLon + zigzagSpecDelta rawLon)
        rest2 <;> rfl

/-- Claim C4 witness: the step theorem applied to the concrete input
`[64, 65]` (raw latitude field 1, raw longitude field 2). -/
theorem C4_zigzag_then_accumulate_witness :
    decodeLoop (0 + 1) 5 7 [64, 65] =
      (decodeLoop 0 (5 + zigzagSpecDelta 1) (7 + zigzagSpecDelta 2) []).map
        ((5 + zigzagSpecDelta 1, 7 + zigzagSpecDelta 2) :: ·) :=
  C4_zigzag_then_accumulate [64, 65] [65] [] 1 2 5 7 0 (by decide) (by decide)

/-- Claim C5: the decoder is exactly the greedy left-to-right field parse
followed by pairing consecutive fields into points (latitude field first,
longitude second), accumulating from the initial running values (0, 0): the
output points appear in field order, nothing is reordered or deduplicated,
and every emitted coordinate is the absolute running sum. -/
theorem C5_two_fields_per_point_in_order :
    ∀ bytes : List Nat,
      decodeShapePolyline6Int bytes =
        (parseFields bytes.length bytes).bind (pointsOfFields 0 0) :=
  fun bytes => decodeLoop_eq_parseFields bytes.length bytes 0 0 bytes.length le_rfl le_rfl

/-- Claim C6 (counterexample): on the non-empty ASCII three-byte input of
byte values `[63, 63, 63]` every field's continuation chain terminates inside
the string — the greedy parse succeeds with three complete fields — yet the
decoder reads past the end of the input (the `none` result models the
out-of-bounds access), because after one complete point the third field
starts a point whose longitude field begins beyond the last byte. -/
theorem C6_terminating_fields_oob :
    parseFields 3 [63, 63, 63] = some [0, 0, 0] ∧
    decodeShapePolyline6Int [63, 63, 63] = none := by
  decide

/-- Claim C6 (amended): for every input whose fields parse completely and
come in complete latitude/longitude pairs (an even number of fields), the
decoder stays in bounds: it never performs the out-of-bounds read, i.e. it
returns a point list. -/
theorem C6_complete_pairs_in_bounds :
    ∀ (bytes rs : List Nat), parseFields bytes.length bytes = some rs →
      rs.length % 2 = 0 → ∃ ps, decodeShapePolyline6Int bytes = some ps := by
  intro bytes rs hp he
  obtain ⟨ps, hps⟩ := pointsOfFields_isSome rs.length rs 0 0 le_rfl he
  refine ⟨ps, ?_⟩
  show decodeLoop bytes.length 0 0 bytes = some ps
  rw [decodeLoop_eq_parseFields bytes.length bytes 0 0 bytes.length le_rfl le_rfl, hp]
  exact hps

/-- Claim C6 witness: the amended theorem applied to the concrete two-field
input `[63, 63]`. -/
theorem C6_complete_pairs_in_bounds_witness :
    ∃ ps, decodeShapePolyline6Int [63, 63] = some ps :=
  C6_complete_pairs_in_bounds [63, 63] [0, 0] (by decide) (by decide)

/-- Claim C7: called on the empty string, the decoder returns the empty point
sequence (the outer loop body is never entered); this settles the claimed
reject-or-empty disjunction on its second branch. -/
theorem C7_empty_input : decodeShapePolyline6 [] = some [] := rfl

/-- Claim C8: the deserialization adapter returns the decoder's result on any
extracted string in the string's place, and passes any extraction failure of
the surrounding framework through unchanged, defining no error of its own. -/
theorem C8_adapter_passthrough :
    ∀ (ε : Type) (e : ε) (s : List Nat),
      deserializeShape (Except.ok s : Except ε (List Nat)) =
          Except.ok (decodeShapePolyline6 s) ∧
      deserializeShape (Except.error e : Except ε (List Nat)) = Except.error e :=
  fun _ _ _ => ⟨rfl, rfl⟩

/-- Claim C9: both conversions are total pure functions; the compact
conversion rounds each component to the nearest binary32 value, and on a
point with longitude 123.4567895 it yields the binary32 value
505679 / 4096 = 123.456787109375, which still satisfies the asserted
longitude bounds. -/
theorem C9_conversions :
    (∀ lon lat : ℚ, shapePointToCoordinate ⟨lon, lat⟩ = (toF32 lon, toF32 lat) ∧
        shapePointToGeoPoint ⟨lon, lat⟩ = (lon, lat)) ∧
    toF32 (f64Lit 1234567895 10000000) = mkRat 505679 4096 ∧
    toF32 (mkRat 505679 4096) = mkRat 505679 4096 ∧
    lonAssertOk (f64Lit 1234567895 10000000) = true ∧
    lonAssertOk (mkRat 505679 4096) = true :=
  ⟨fun _ _ => ⟨rfl, rfl⟩, by decide, by decide, by decide, by decide⟩

/-- Claim C10: the decoder makes a single linear left-to-right pass: every
decoded field consumes at least one byte and leaves exactly a suffix of its
input (so the cursor strictly increases and no byte is read twice), the
loop's fuel bound is irrelevant once it is at least the input length (the
loop terminates within one iteration per point), and the outer loop ends
exactly when the whole input has been consumed. -/
theorem C10_single_linear_pass :
    (∀ (bytes : List Nat) (shift acc raw : Nat) (rest : List Nat),
        decodeValue bytes shift acc = some (raw, rest) →
        ∃ k, 1 ≤ k ∧ k ≤ bytes.length ∧ rest = bytes.drop k) ∧
    (∀ (bytes : List Nat) (fuel : Nat), bytes.length ≤ fuel →
        decodeLoop fuel 0 0 bytes = decodeShapePolyline6Int bytes) ∧
    (∀ (fuel : Nat) (pLat pLon : Int), decodeLoop fuel pLat pLon [] = some []) :=
  ⟨decodeValue_drop,
   fun bytes fuel hf =>
     decodeLoop_congr bytes.length bytes 0 0 fuel bytes.length le_rfl hf le_rfl,
   decodeLoop_nil⟩

/-- Claim C10 witness: the single-pass theorem applied at concrete inputs (a
two-byte field leaving the suffix `[65]`, a one-point input decoded at excess
fuel, and the empty byte list). -/
theorem C10_single_linear_pass_witness :
    (∃ k, 1 ≤ k ∧ k ≤ 3 ∧ [(65 : Nat)] = List.drop k [95, 64, 65]) ∧
    decodeLoop 7 0 0 [63, 63] = decodeShapePolyline6Int [63, 63] ∧
    decodeLoop 0 1 2 [] = some [] :=
  ⟨C10_single_linear_pass.1 [95, 64, 65] 0 0 32 [65] (by decide),
   C10_single_linear_pass.2.1 [63, 63] 7 (by decide),
   C10_single_linear_pass.2.2 0 1 2⟩

end ValhallaShapes
